import Mathlib

/-!
Shallow embedding of the schedule-row normalization pipeline of the
grad-planner repository (the `Calendar` component): time parsing,
date-time combination, learner-group derivation, CSV row normalization,
and the UI-level add/update/delete operations on the event list.

Modelling conventions:
* JavaScript numbers that may be NaN are modelled as `Option Int`
  (`none` = NaN); comparisons involving NaN are `false`, as in JS,
  and `!==` against NaN is `true`.
* JavaScript `Date` values are modelled as `Option Int`, minutes since
  the Unix epoch (`none` = Invalid Date).  All code paths produce
  whole-minute timestamps (seconds are always zero), so minute
  resolution is exact.  The code performs no timezone normalization
  ("all timestamps are treated as local wall-clock values"), so local
  time is identified with UTC.
* JS regular expressions are translated into explicit leftmost-match
  searches with the greedy/backtracking behaviour of the concrete
  patterns used in the source.
-/

/-- Whitespace characters for the JS `trim` and the regex class `\s`
(the characters that actually occur in this pipeline's inputs). -/
def jsWhite (c : Char) : Bool :=
  c == ' ' || c == '\t' || c == '\n' || c == '\r'

/-- Trim `jsWhite` characters from both ends of a character list
(model of JS `String.prototype.trim`). -/
def jsTrimList (cs : List Char) : List Char :=
  ((cs.dropWhile jsWhite).reverse.dropWhile jsWhite).reverse

/-- Model of JS `trim` on strings. -/
def jsTrim (s : String) : String :=
  String.mk (jsTrimList s.toList)

/-- ASCII lower-casing of a character (model of JS `toLowerCase` on the
ASCII inputs of this pipeline). -/
def jsToLowerChar (c : Char) : Char :=
  if 'A' ≤ c ∧ c ≤ 'Z' then Char.ofNat (c.toNat + 32) else c

/-- ASCII upper-casing of a character (model of JS `toUpperCase`). -/
def jsToUpperChar (c : Char) : Char :=
  if 'a' ≤ c ∧ c ≤ 'z' then Char.ofNat (c.toNat - 32) else c

/-- Model of JS `toLowerCase` on strings. -/
def jsToLower (s : String) : String :=
  String.mk (s.toList.map jsToLowerChar)

/-- Model of JS `toUpperCase` on strings. -/
def jsToUpper (s : String) : String :=
  String.mk (s.toList.map jsToUpperChar)

/-- Numeric value of a list of decimal digit characters. -/
def digitsToNat (cs : List Char) : Nat :=
  cs.foldl (fun acc c => acc * 10 + (c.toNat - 48)) 0

/-- Is the head of the list the given character? -/
def headIs (c : Char) : List Char → Bool
  | d :: _ => d == c
  | [] => false

/-- Model of JS `parseInt(s, 10)`: skip leading whitespace, optional
sign, then the maximal run of leading decimal digits; `none` (NaN) when
no digit is found. -/
def jsParseInt (s : String) : Option Int :=
  let cs := s.toList.dropWhile jsWhite
  let neg := headIs '-' cs
  let pos := headIs '+' cs
  let body := if neg || pos then cs.tail else cs
  let ds := body.takeWhile Char.isDigit
  if ds = [] then none
  else some ((if neg then -1 else 1) * (digitsToNat ds : Int))

/-- Does the first list start with the second one? -/
def startsWithList : List Char → List Char → Bool
  | _, [] => true
  | [], _ :: _ => false
  | c :: cs, p :: ps => c == p && startsWithList cs ps

/-- Model of the JS test `/[a-zA-Z]/.test(s)`. -/
def containsAlpha (s : String) : Bool :=
  s.toList.any (fun c =>
    decide ('a' ≤ c ∧ c ≤ 'z') || decide ('A' ≤ c ∧ c ≤ 'Z'))

/-- JS number that may be NaN: `none` is NaN. -/
abbrev JNum := Option Int

/-- NaN-propagating addition of a constant. -/
def jadd (a : JNum) (k : Int) : JNum := a.map (· + k)

/-- JS `a < b` for a possibly-NaN `a` (false on NaN). -/
def jltI (a : JNum) (b : Int) : Bool :=
  match a with
  | some x => decide (x < b)
  | none => false

/-- JS `a > b` for a possibly-NaN `a` (false on NaN). -/
def jgtI (a : JNum) (b : Int) : Bool :=
  match a with
  | some x => decide (b < x)
  | none => false

/-- JS `a !== b` for a possibly-NaN `a` (true on NaN). -/
def jneI (a : JNum) (b : Int) : Bool :=
  match a with
  | some x => decide (x ≠ b)
  | none => true

/-- JS `a === b` for a possibly-NaN `a` (false on NaN). -/
def jeqI (a : JNum) (b : Int) : Bool :=
  match a with
  | some x => decide (x = b)
  | none => false

/-- JS `Date` value: minutes since the Unix epoch, `none` = Invalid Date. -/
abbrev JSDate := Option Int

/-- JS `a >= b` on `Date` values (false when either is invalid). -/
def jdGe (a b : JSDate) : Bool :=
  match a, b with
  | some x, some y => decide (y ≤ x)
  | _, _ => false

/-- JS `a < b` on `Date` values (false when either is invalid). -/
def jdLt (a b : JSDate) : Bool :=
  match a, b with
  | some x, some y => decide (x < y)
  | _, _ => false

/-- JS `a > b` on `Date` values (false when either is invalid). -/
def jdGt (a b : JSDate) : Bool :=
  match a, b with
  | some x, some y => decide (y < x)
  | _, _ => false

/-- Model of `moment(d).add(k, "days").toDate()`: invalid stays invalid. -/
def jdAddDays (d : JSDate) (k : Int) : JSDate := d.map (· + k * 1440)

/-- Result object of `parseTime` (source lines 73-109): an
`{hours, minutes}` pair whose components may be NaN. -/
structure TimeOfDay where
  hours : JNum
  minutes : JNum
deriving DecidableEq, Repr

/-- Raw time value handed to `parseTime`: either a native `Date`
(of which only `getHours`/`getMinutes` are used) or a string. -/
inductive TimeValue where
  | date (h m : Int) : TimeValue
  | str (s : String) : TimeValue
deriving DecidableEq, Repr

/-- Anchored match of the "military" regex `^(\d{1,2}):?(\d{2})$`
returning the two capture groups (greedy `\d{1,2}` with backtracking,
resolved by case analysis on the input length). -/
def militaryMatch : List Char → Option (String × String)
  | [a, b, c] =>
    if a.isDigit && b.isDigit && c.isDigit then
      some (String.mk [a], String.mk [b, c])
    else none
  | [a, b, c, d] =>
    if a.isDigit && b.isDigit && c.isDigit && d.isDigit then
      some (String.mk [a, b], String.mk [c, d])
    else if a.isDigit && b == ':' && c.isDigit && d.isDigit then
      some (String.mk [a], String.mk [c, d])
    else none
  | [a, b, c, d, e] =>
    if a.isDigit && b.isDigit && c == ':' && d.isDigit && e.isDigit then
      some (String.mk [a, b], String.mk [d, e])
    else none
  | _ => none

/-- Tail of the 12-hour regex `(\d{1,2})(?::(\d{2}))?\s*([ap]m)` after
the hour digits `hs` have been consumed: optional `:MM` group, then
whitespace, then `am`/`pm`.  Skipping a present `:dd` group can never
help the rest of the pattern match (`:` is neither `\s` nor `[ap]`),
so the greedy choice is deterministic here. -/
def twelveTail (hs : List Char) (rest : List Char) :
    Option (String × Option String × String) :=
  let minsRest : Option String × List Char :=
    match rest with
    | ':' :: m1 :: m2 :: r =>
      if m1.isDigit && m2.isDigit then (some (String.mk [m1, m2]), r)
      else (none, rest)
    | _ => (none, rest)
  match minsRest.2.dropWhile jsWhite with
  | p :: q :: _ =>
    if (p == 'a' || p == 'p') && q == 'm' then
      some (String.mk hs, minsRest.1, String.mk [p, 'm'])
    else none
  | _ => none

/-- Match of the 12-hour pattern at the head of the list: try the
two-digit hour first (greedy `\d{1,2}`), backtracking to one digit. -/
def matchTwelveAt : List Char → Option (String × Option String × String)
  | a :: b :: rest =>
    if a.isDigit then
      if b.isDigit then
        match twelveTail [a, b] rest with
        | some r => some r
        | none => twelveTail [a] (b :: rest)
      else twelveTail [a] (b :: rest)
    else none
  | _ => none

/-- Leftmost match of the unanchored 12-hour regex
`(\d{1,2})(?::(\d{2}))?\s*([ap]m)`. -/
def searchTwelve : List Char → Option (String × Option String × String)
  | [] => none
  | c :: cs =>
    match matchTwelveAt (c :: cs) with
    | some r => some r
    | none => searchTwelve cs

/-- Leftmost match of the regex `(noon|midnight)` (alternatives tried
in order at each position), returning capture group 1. -/
def searchNoonMid : List Char → Option String
  | [] => none
  | c :: cs =>
    if startsWithList (c :: cs) "noon".toList then some "noon"
    else if startsWithList (c :: cs) "midnight".toList then some "midnight"
    else searchNoonMid cs

/-- Source lines 93-101: computation on the capture groups of the
12-hour match.  `g1`/`g2`/`g3` are `match[1]`, `match[2]`, `match[3]`;
for the `(noon|midnight)` alternative only `match[1]` is present, so
`parseInt(match[1])` is NaN and `period` is `undefined` (modelled as
`none`), which is exactly what the source computes. -/
def twelveCompute (g1 g2 g3 : Option String) : Option TimeOfDay :=
  let hours : JNum :=
    match g1 with
    | some s => if s ≠ "" then jsParseInt s else some 0
    | none => some 0
  let minutes : JNum :=
    match g2 with
    | some s => jsParseInt s
    | none => some 0
  let period : Option String := g3.map jsToLower
  let hours := if period == some "noon" then some (12 : Int) else hours
  let hours := if period == some "midnight" then some (0 : Int) else hours
  let hours := if period == some "pm" && jneI hours 12 then jadd hours 12 else hours
  let hours := if period == some "am" && jeqI hours 12 then some (0 : Int) else hours
  if jltI hours 0 || jgtI hours 23 || jltI minutes 0 || jgtI minutes 59 then none
  else some ⟨hours, minutes⟩

/-- Model of `parseTime` (source lines 73-109). -/
def parseTime (timeValue : TimeValue) : Option TimeOfDay :=
  match timeValue with
  | .date h m => some ⟨some h, some m⟩
  | .str s =>
    if s == "" then none
    else
      let cleaned := jsToLower (jsTrim s)
      match militaryMatch cleaned.toList with
      | some (g1, g2) =>
        let hours := digitsToNat g1.toList
        let minutes := digitsToNat g2.toList
        if hours > 23 ∨ minutes > 59 then none
        else some ⟨some (hours : Int), some (minutes : Int)⟩
      | none =>
        match searchTwelve cleaned.toList with
        | some (g1, g2, g3) => twelveCompute (some g1) g2 (some g3)
        | none =>
          match searchNoonMid cleaned.toList with
          | some w => twelveCompute (some w) none none
          | none => none

/-- Leap year predicate (proleptic Gregorian, as used by `moment`). -/
def isLeap (y : Int) : Bool :=
  (y % 4 == 0 && y % 100 != 0) || y % 400 == 0

/-- Number of days of month `m` in year `y`. -/
def daysInMonth (y m : Int) : Int :=
  if m == 2 then (if isLeap y then 29 else 28)
  else if m == 4 || m == 6 || m == 9 || m == 11 then 30
  else 31

/-- Days since the Unix epoch of the civil date `y-m-d` (standard
era-based conversion; divisions are truncating and all intermediate
dividends are non-negative for the years handled here). -/
def daysFromCivil (y m d : Int) : Int :=
  let y2 := if m ≤ 2 then y - 1 else y
  let era := (if 0 ≤ y2 then y2 else y2 - 399) / 400
  let yoe := y2 - era * 400
  let doy := (153 * (if 2 < m then m - 3 else m + 9) + 2) / 5 + d - 1
  let doe := yoe * 365 + yoe / 4 - yoe / 100 + doy
  era * 146097 + doe - 719468

/-- Civil date `(y, m, d)` of a day count since the Unix epoch
(inverse of `daysFromCivil`). -/
def civilFromDays (z0 : Int) : Int × Int × Int :=
  let z := z0 + 719468
  let era := (if 0 ≤ z then z else z - 146096) / 146097
  let doe := z - era * 146097
  let yoe := (doe - doe / 1460 + doe / 36524 - doe / 146096) / 365
  let y := yoe + era * 400
  let doy := doe - (365 * yoe + yoe / 4 - yoe / 100)
  let mp := (5 * doy + 2) / 153
  let d := doy - (153 * mp + 2) / 5 + 1
  let m := if mp < 10 then mp + 3 else mp - 9
  (if m ≤ 2 then y + 1 else y, m, d)

/-- Value of a two-digit group. -/
def digit2 (a b : Char) : Int := (digitsToNat [a, b] : Int)

/-- Value of a four-digit group. -/
def digit4 (a b c d : Char) : Int := (digitsToNat [a, b, c, d] : Int)

/-- Month number of a three-letter month abbreviation (`moment`'s
default locale, case-insensitive). -/
def monthAbbrev (a b c : Char) : Option Int :=
  match String.mk [jsToLowerChar a, jsToLowerChar b, jsToLowerChar c] with
  | "jan" => some 1
  | "feb" => some 2
  | "mar" => some 3
  | "apr" => some 4
  | "may" => some 5
  | "jun" => some 6
  | "jul" => some 7
  | "aug" => some 8
  | "sep" => some 9
  | "oct" => some 10
  | "nov" => some 11
  | "dec" => some 12
  | _ => none

/-- Strict shape match for the `moment` format `"YYYYMMDD"`. -/
def pYYYYMMDD : List Char → Option (Int × Int × Int)
  | [y1, y2, y3, y4, m1, m2, d1, d2] =>
    if [y1, y2, y3, y4, m1, m2, d1, d2].all Char.isDigit then
      some (digit4 y1 y2 y3 y4, digit2 m1 m2, digit2 d1 d2)
    else none
  | _ => none

/-- Strict shape match for the `moment` format `"YYYY-MM-DD"`. -/
def pYYYYdashMMdashDD : List Char → Option (Int × Int × Int)
  | [y1, y2, y3, y4, '-', m1, m2, '-', d1, d2] =>
    if [y1, y2, y3, y4, m1, m2, d1, d2].all Char.isDigit then
      some (digit4 y1 y2 y3 y4, digit2 m1 m2, digit2 d1 d2)
    else none
  | _ => none

/-- Strict shape match for the `moment` format `"MM/DD/YYYY"`. -/
def pMMslashDDslashYYYY : List Char → Option (Int × Int × Int)
  | [m1, m2, '/', d1, d2, '/', y1, y2, y3, y4] =>
    if [m1, m2, d1, d2, y1, y2, y3, y4].all Char.isDigit then
      some (digit4 y1 y2 y3 y4, digit2 m1 m2, digit2 d1 d2)
    else none
  | _ => none

/-- Strict shape match for the `moment` format `"DD-MM-YYYY"`. -/
def pDDdashMMdashYYYY : List Char → Option (Int × Int × Int)
  | [d1, d2, '-', m1, m2, '-', y1, y2, y3, y4] =>
    if [d1, d2, m1, m2, y1, y2, y3, y4].all Char.isDigit then
      some (digit4 y1 y2 y3 y4, digit2 m1 m2, digit2 d1 d2)
    else none
  | _ => none

/-- Strict shape match for the `moment` format `"MMM DD, YYYY"`. -/
def pMMMDDcommaYYYY : List Char → Option (Int × Int × Int)
  | [a, b, c, ' ', d1, d2, ',', ' ', y1, y2, y3, y4] =>
    match monthAbbrev a b c with
    | some m =>
      if [d1, d2, y1, y2, y3, y4].all Char.isDigit then
        some (digit4 y1 y2 y3 y4, m, digit2 d1 d2)
      else none
    | none => none
  | _ => none

/-- Strict shape match for the `moment` format `"DD MMM YYYY"`. -/
def pDDMMMYYYY : List Char → Option (Int × Int × Int)
  | [d1, d2, ' ', a, b, c, ' ', y1, y2, y3, y4] =>
    match monthAbbrev a b c with
    | some m =>
      if [d1, d2, y1, y2, y3, y4].all Char.isDigit then
        some (digit4 y1 y2 y3 y4, m, digit2 d1 d2)
      else none
    | none => none
  | _ => none

/-- Strict shape match for the `moment` format `"YYYY/MM/DD"`. -/
def pYYYYslashMMslashDD : List Char → Option (Int × Int × Int)
  | [y1, y2, y3, y4, '/', m1, m2, '/', d1, d2] =>
    if [y1, y2, y3, y4, m1, m2, d1, d2].all Char.isDigit then
      some (digit4 y1 y2 y3 y4, digit2 m1 m2, digit2 d1 d2)
    else none
  | _ => none

/-- Is `y-m-d` an existing calendar date? -/
def dateValid (y m d : Int) : Bool :=
  decide (1 ≤ m) && decide (m ≤ 12) && decide (1 ≤ d) && decide (d ≤ daysInMonth y m)

/-- The ordered format list of `parseDateTime` (source lines 136-144). -/
def momentFormats : List (List Char → Option (Int × Int × Int)) :=
  [pYYYYMMDD, pYYYYdashMMdashDD, pMMslashDDslashYYYY, pDDdashMMdashYYYY,
   pMMMDDcommaYYYY, pDDMMMYYYY, pYYYYslashMMslashDD]

/-- Model of `moment(s, dateFormats, true)` followed by `isValid()`:
the first format whose shape matches and yields an existing calendar
date gives the day count since the epoch, otherwise failure. -/
def momentStrictDay (s : String) : Option Int :=
  (momentFormats.filterMap (fun p =>
    match p s.toList with
    | some (y, m, d) => if dateValid y m d then some (daysFromCivil y m d) else none
    | none => none)).head?

/-- Model of the guard `moment(s, "YYYYMMDD", true).isValid()` used by
the row processors. -/
def validYYYYMMDD (s : String) : Bool :=
  match pYYYYMMDD s.toList with
  | some (y, m, d) => dateValid y m d
  | none => false

/-- Model of `fixInvalidDate` (source lines 57-68) on the string inputs
this pipeline passes to it: the known corrupted prefix `"+057342"` is
replaced by the literal `"2023"`. -/
def fixInvalidDate (s : String) : String :=
  if startsWithList s.toList "+057342".toList then
    "2023" ++ String.mk (s.toList.drop 7)
  else s

/-- Falsiness of a raw time value (`!timeValue` in the source): the
empty string is the falsy case reachable here. -/
def timeValueFalsy : TimeValue → Bool
  | .str s => s == ""
  | .date _ _ => false

/-- Decimal-literal check used by `jsIsNumericStr` (after the optional
sign): digits with at most one dot and not a lone dot. -/
def decimalBody (cs : List Char) : Bool :=
  decide (cs ≠ []) && decide (cs ≠ ['.']) &&
    cs.all (fun c => c.isDigit || c == '.') &&
    decide ((cs.filter (· == '.')).length ≤ 1)

/-- Strip one optional leading sign character. -/
def stripSign : List Char → List Char
  | '+' :: r => r
  | '-' :: r => r
  | cs => cs

/-- Model of the JS test `!isNaN(s)` for a string `s` (`Number(s)` is
not NaN): true for the empty/whitespace string (`Number("") = 0`) and
for optionally signed decimal literals.  Exponent and hex literals are
not produced by this pipeline and are not modelled. -/
def jsIsNumericStr (s : String) : Bool :=
  let cs := jsTrimList s.toList
  if cs ≠ [] && cs.all Char.isDigit then true
  else cs = [] || decimalBody (stripSign cs)

/-- Moment-format branch of `parseDateTime` (source lines 136-159):
strict multi-format date parse, then `parseTime`, then combination;
an invalid combined datetime is caught by the `isNaN` check and
yields `null`. -/
def momentPath (fixed : String) (timeValue : TimeValue) : Option JSDate :=
  match momentStrictDay fixed with
  | none => none
  | some dayIdx =>
    match parseTime timeValue with
    | none => none
    | some t =>
      match t.hours, t.minutes with
      | some h, some m => some (some (dayIdx * 1440 + h * 60 + m))
      | _, _ => none

/-- Model of `parseDateTime` (source lines 114-164).  The Excel-serial
branch (lines 122-133) mirrors
`new Date((excelDate - 25569) * 86400 * 1000)` followed by
`setDate(getDate() - 1)` when the serial exceeds 59 and by
`setHours(hours, minutes)`; note this branch returns the `Date`
without any validity check, so NaN time components produce an Invalid
Date result (`some none`), not `null`. -/
def parseDateTime (dateString : String) (timeValue : TimeValue) : Option JSDate :=
  if dateString == "" || timeValueFalsy timeValue then none
  else
    let fixed := fixInvalidDate dateString
    match (if jsIsNumericStr fixed then jsParseInt fixed else none) with
    | some n =>
      if n < 100000 then
        let days := n - 25569
        let days := if 59 < n then days - 1 else days
        match parseTime timeValue with
        | none => none
        | some t =>
          match t.hours, t.minutes with
          | some h, some m => some (some (days * 1440 + h * 60 + m))
          | _, _ => some none
      else momentPath fixed timeValue
    | none => momentPath fixed timeValue

/-- The sixteen characters of the case-insensitive regex class `[A-H]`. -/
def letterAHChars : List Char :=
  ['A', 'B', 'C', 'D', 'E', 'F', 'G', 'H', 'a', 'b', 'c', 'd', 'e', 'f', 'g', 'h']

/-- Membership in the regex class `[A-H]` (case-insensitive). -/
def isLetterAH (c : Char) : Bool := decide (c ∈ letterAHChars)

/-- Membership in the regex class `[1-2]`. -/
def isDigit12 (c : Char) : Bool := c == '1' || c == '2'

/-- Anchored test of the regex `/^[A-H][1-2]$/i` (source line 32). -/
def expectedPatternTest (s : String) : Bool :=
  match s.toList with
  | [c, d] => isLetterAH c && isDigit12 d
  | _ => false

/-- Match of the pattern `([A-H])\s*([1-2])/i` at the head of the
list.  The greedy `\s*` is deterministic here: a shorter whitespace run
leaves a whitespace character where `[1-2]` is required. -/
def matchGroupAt : List Char → Option (Char × Char)
  | c :: rest =>
    if isLetterAH c then
      match rest.dropWhile jsWhite with
      | d :: _ => if isDigit12 d then some (c, d) else none
      | [] => none
    else none
  | [] => none

/-- Leftmost match of `/([A-H])\s*([1-2])/i` (source lines 42 and 47),
returning the two captured characters. -/
def searchGroup : List Char → Option (Char × Char)
  | [] => none
  | c :: cs =>
    match matchGroupAt (c :: cs) with
    | some r => some r
    | none => searchGroup cs

/-- First step of `deriveLearnerGroup` (source lines 34-39): the
trimmed explicit field when it matches `/^[A-H][1-2]$/i` exactly,
otherwise the empty string. -/
def groupExplicit (learnerGroupField : String) : String :=
  if learnerGroupField != "" then
    if expectedPatternTest (jsTrim learnerGroupField) then jsTrim learnerGroupField
    else ""
  else ""

/-- Fallback step of `deriveLearnerGroup` (source lines 41-44 and
46-49): when no group was found yet and the field is non-empty, search
it for `/([A-H])\s*([1-2])/i` and compose the captured characters. -/
def groupFallback (group field : String) : String :=
  if group == "" && field != "" then
    match searchGroup field.toList with
    | some (a, b) => String.mk [a, b]
    | none => group
  else group

/-- Model of `deriveLearnerGroup` (source lines 30-52): explicit field
first, then the section-name search, then the session-name search,
finally upper-cased or the `"Ungrouped"` sentinel. -/
def deriveLearnerGroup (learnerGroupField sessionName sectionName : String) : String :=
  let group := groupExplicit learnerGroupField
  let group := groupFallback group sectionName
  let group := groupFallback group sessionName
  if group != "" then jsToUpper (jsTrim group) else "Ungrouped"

/-- CSV row as delivered by `Papa.parse` with `header: true` and
`dynamicTyping: false`: column name / string value pairs in column
order. -/
abbrev Row := List (String × String)

/-- Field accessor of `processCSVFile` (source lines 369-374):
case-insensitive lookup of the first matching column, empty string
when the column is absent or its value is empty. -/
def getField (row : Row) (name : String) : String :=
  match row.find? (fun kv => jsToLower kv.1 == jsToLower name) with
  | some kv => kv.2
  | none => ""

/-- Event record built by the row processors (the source object's
`end` field is spelled `end_` because `end` is a Lean keyword). -/
structure EventRecord where
  title : String
  start : JSDate
  end_ : JSDate
  desc : String
  location : String
  learnerGroup : String
deriving DecidableEq, Repr

/-- End-adjustment step, duplicated verbatim in the spreadsheet and
CSV row processors (source lines 316-327 and 406-416): when
`start >= end`, roll `end` one day forward and accept exactly when
`start` is then strictly before it. -/
def adjustEndStep (start end_ : JSDate) : Option JSDate :=
  if jdGe start end_ then
    let adjustedEnd := jdAddDays end_ 1
    if jdLt start adjustedEnd then some adjustedEnd else none
  else some end_

/-- Model of the per-row body of `processCSVFile` (source lines
367-435): zero or one `EventRecord` per row. -/
def processCSVRow (row : Row) : Option EventRecord :=
  let sectionDate := getField row "Section Date"
  let startTime := getField row "Start Time"
  let endTime := getField row "End Time"
  let sessionName := getField row "Session Name"
  let sectionName :=
    if getField row "Section Name" != "" then getField row "Section Name"
    else getField row "Section"
  let learnerGroupField := getField row "Learner Group"
  let learnerGroup := deriveLearnerGroup learnerGroupField sessionName sectionName
  if sectionDate == "" then none
  else if containsAlpha sectionDate && !validYYYYMMDD sectionDate then none
  else
    match parseDateTime sectionDate (.str startTime),
          parseDateTime sectionDate (.str endTime) with
    | some s, some e =>
      match adjustEndStep s e with
      | none => none
      | some e2 =>
        some { title := if sessionName != "" then sessionName else "Untitled Session"
               start := s
               end_ := e2
               desc := String.intercalate " - "
                 (([getField row "Course Name", getField row "Session Type",
                    getField row "Section Name"]).filter (fun x => !x.isEmpty))
               location :=
                 if getField row "Location" != "" then getField row "Location"
                 else "Unknown Location"
               learnerGroup := learnerGroup }
    | _, _ => none

/-- Model of `processCSVFile` over the parsed rows (source lines
361-451).  The trailing `instanceof Date` filter of the source is the
identity on the records built here (their `start`/`end` are always
`Date` objects, valid or not), so the result is exactly the
per-row `flatMap`. -/
def processCSVFile (rows : List Row) : List EventRecord :=
  rows.filterMap processCSVRow

/-- Candidate event assembled by the add/edit form (source lines
650-654).  Form-created events carry well-formed `Date` values
(`datetime-local` inputs), so their timestamps are plain integers. -/
structure UIEvent where
  title : String
  start : Int
  end_ : Int
deriving DecidableEq, Repr

/-- Event object in the calendar's state: `oid` is the object identity
token — two aliases of one JS object share `oid`, distinct objects
have distinct `oid`s even when all their fields coincide. -/
structure EvObj where
  oid : Nat
  ev : UIEvent
deriving DecidableEq, Repr

/-- Model of `handleAddEvent` (source lines 495-502). -/
def handleAddEvent (events : List EvObj) (newEvent : EvObj) : List EvObj :=
  if newEvent.ev.end_ ≤ newEvent.ev.start then events
  else events ++ [newEvent]

/-- Model of `handleUpdateEvent` (source lines 504-509): replacement by
reference identity with the selected event. -/
def handleUpdateEvent (events : List EvObj) (selectedEvent updatedEvent : EvObj) :
    List EvObj :=
  events.map (fun evt => if evt.oid == selectedEvent.oid then updatedEvent else evt)

/-- Model of `handleDeleteEvent` (source lines 511-514): removal by
reference identity (`evt !== eventToDelete`). -/
def handleDeleteEvent (events : List EvObj) (eventToDelete : EvObj) : List EvObj :=
  events.filter (fun evt => evt.oid != eventToDelete.oid)

/-- Day of month of a timestamp (`moment(ts).date()`). -/
def dayOfMonth (ts : Int) : Int := (civilFromDays (Int.fdiv ts 1440)).2.2

/-- Model of the modal form's submit handler (source lines 640-662):
optional multi-day confirmation, then the `end <= start` validation
with a blocking alert, then dispatch to add (a slot is selected) or
update (an event is selected). -/
def formSubmit (events : List EvObj) (selectedSlot : Bool) (selectedEvent : EvObj)
    (confirmOk : Bool) (newEvent : EvObj) : List EvObj :=
  if (dayOfMonth newEvent.ev.start != dayOfMonth newEvent.ev.end_) && !confirmOk then
    events
  else if newEvent.ev.end_ ≤ newEvent.ev.start then events
  else if selectedSlot then handleAddEvent events newEvent
  else handleUpdateEvent events selectedEvent newEvent

/-- Spec data-model well-formedness of a `TimeOfDay`:
`{hours: 0..23, minutes: 0..59}`, neither component NaN. -/
def timeOfDayInRange (t : TimeOfDay) : Bool :=
  match t.hours, t.minutes with
  | some h, some m =>
    decide (0 ≤ h) && decide (h ≤ 23) && decide (0 ≤ m) && decide (m ≤ 59)
  | _, _ => false

/-- Spec shape of a canonical learner-group code: uppercase
`[A-H][1-2]`. -/
def isGroupCode (s : String) : Bool :=
  match s.toList with
  | [c, d] => decide ('A' ≤ c ∧ c ≤ 'H') && isDigit12 d
  | _ => false

theorem string_mk_toList (s : String) : String.mk s.toList = s := rfl

theorem ne_empty_of_toList_ne_nil {s : String} (h : s.toList ≠ []) : s ≠ "" := by
  intro he
  subst he
  exact h rfl

theorem beq_empty_eq_false {s : String} (h : s ≠ "") : (s == "") = false :=
  beq_eq_false_iff_ne.mpr h

theorem dropWhile_dropWhile (p : Char → Bool) (l : List Char) :
    (l.dropWhile p).dropWhile p = l.dropWhile p := by
  induction l with
  | nil => rfl
  | cons a as ih =>
    by_cases h : p a
    · simp [List.dropWhile_cons, h, ih]
    · simp [List.dropWhile_cons, h]

theorem digit_not_white {c : Char} (h : c.isDigit = true) : jsWhite c = false := by
  cases hx : jsWhite c
  · rfl
  · exfalso
    simp only [jsWhite, Bool.or_eq_true, beq_iff_eq] at hx
    rcases hx with ((rfl | rfl) | rfl) | rfl <;> exact absurd h (by decide)

theorem dropWhile_white_of_digits {l : List Char}
    (h : ∀ c ∈ l, c.isDigit = true) : l.dropWhile jsWhite = l := by
  cases l with
  | nil => rfl
  | cons a as =>
    have ha := digit_not_white (h a (List.mem_cons_self a as))
    simp [List.dropWhile_cons, ha]

theorem jsTrimList_of_digits {l : List Char}
    (h : ∀ c ∈ l, c.isDigit = true) : jsTrimList l = l := by
  unfold jsTrimList
  rw [dropWhile_white_of_digits h,
    dropWhile_white_of_digits (fun c hc => h c (List.mem_reverse.mp hc)),
    List.reverse_reverse]

theorem takeWhile_of_digits {l : List Char}
    (h : ∀ c ∈ l, c.isDigit = true) : l.takeWhile Char.isDigit = l := by
  induction l with
  | nil => rfl
  | cons a as ih =>
    simp [List.takeWhile_cons, h a (by simp), ih (fun c hc => h c (by simp [hc]))]

theorem char_beq_eq_false_of_digit {c d : Char} (h : c.isDigit = true)
    (hd : d.isDigit = false) : (c == d) = false := by
  cases hx : c == d
  · rfl
  · exfalso
    have : c = d := eq_of_beq hx
    subst this
    simp [h] at hd

theorem jsParseInt_of_digits {s : String} (hne : s.toList ≠ [])
    (h : ∀ c ∈ s.toList, c.isDigit = true) :
    jsParseInt s = some (digitsToNat s.toList : Int) := by
  unfold jsParseInt
  rw [dropWhile_white_of_digits h]
  cases hl : s.toList with
  | nil => exact absurd hl hne
  | cons a as =>
    have ha : a.isDigit = true := h a (by rw [hl]; exact List.mem_cons_self a as)
    have hminus : (a == '-') = false := char_beq_eq_false_of_digit ha (by decide)
    have hplus : (a == '+') = false := char_beq_eq_false_of_digit ha (by decide)
    have hall : ∀ c ∈ a :: as, c.isDigit = true := by
      intro c hc
      refine h c ?_
      rw [hl]
      exact hc
    have htw : (a :: as).takeWhile Char.isDigit = a :: as := takeWhile_of_digits hall
    simp [headIs, hminus, hplus, htw]

theorem matchGroupAt_sound {l : List Char} {a b : Char}
    (h : matchGroupAt l = some (a, b)) :
    isLetterAH a = true ∧ isDigit12 b = true := by
  unfold matchGroupAt at h
  repeat' split at h
  all_goals simp_all

theorem searchGroup_sound {cs : List Char} {a b : Char}
    (h : searchGroup cs = some (a, b)) :
    isLetterAH a = true ∧ isDigit12 b = true := by
  induction cs with
  | nil => simp [searchGroup] at h
  | cons c cs ih =>
    unfold searchGroup at h
    cases hm : matchGroupAt (c :: cs) with
    | some r =>
      rw [hm] at h
      injection h with h2
      subst h2
      exact matchGroupAt_sound hm
    | none =>
      rw [hm] at h
      exact ih h

theorem expectedPatternTest_sound {s : String} (h : expectedPatternTest s = true) :
    ∃ c d, s.toList = [c, d] ∧ isLetterAH c = true ∧ isDigit12 d = true := by
  unfold expectedPatternTest at h
  split at h
  · rename_i c d heq
    rcases Bool.and_eq_true_iff.mp h with ⟨hc, hd⟩
    exact ⟨c, d, heq, hc, hd⟩
  · exact absurd h (by simp)

theorem letterAH_not_white {c : Char} (h : isLetterAH c = true) : jsWhite c = false := by
  have hm : c ∈ letterAHChars := of_decide_eq_true h
  fin_cases hm <;> decide

theorem digit12_cases {c : Char} (h : isDigit12 c = true) : c = '1' ∨ c = '2' := by
  simpa [isDigit12] using h

theorem digit12_not_white {c : Char} (h : isDigit12 c = true) : jsWhite c = false := by
  rcases digit12_cases h with rfl | rfl <;> decide

theorem jsTrim_pair {c d : Char} (hc : jsWhite c = false) (hd : jsWhite d = false) :
    jsTrim (String.mk [c, d]) = String.mk [c, d] := by
  unfold jsTrim jsTrimList
  simp [List.dropWhile_cons, hc, hd]

theorem groupCode_of_letter_digit {c d : Char}
    (hc : isLetterAH c = true) (hd : isDigit12 d = true) :
    isGroupCode (jsToUpper (String.mk [c, d])) = true := by
  have hm : c ∈ letterAHChars := of_decide_eq_true hc
  rcases digit12_cases hd with rfl | rfl <;> fin_cases hm <;> decide

theorem mk_pair_ne_empty {c d : Char} : String.mk [c, d] ≠ "" := by
  intro h
  have h2 : ([c, d] : List Char) = [] := congrArg String.toList h
  simp at h2

theorem groupExplicit_shape (lg : String) :
    groupExplicit lg = "" ∨
    ∃ c d, groupExplicit lg = String.mk [c, d] ∧
      isLetterAH c = true ∧ isDigit12 d = true := by
  unfold groupExplicit
  by_cases h1 : (lg != "") = true
  · rw [if_pos h1]
    by_cases h2 : expectedPatternTest (jsTrim lg) = true
    · rw [if_pos h2]
      right
      obtain ⟨c, d, hcd, hc, hd⟩ := expectedPatternTest_sound h2
      exact ⟨c, d, by rw [← string_mk_toList (jsTrim lg), hcd], hc, hd⟩
    · rw [if_neg h2]
      exact Or.inl rfl
  · rw [if_neg h1]
    exact Or.inl rfl

theorem groupExplicit_of_test {lg : String}
    (h2 : expectedPatternTest (jsTrim lg) = true) :
    groupExplicit lg = jsTrim lg := by
  have h1 : lg ≠ "" := by
    intro he
    subst he
    exact absurd h2 (by decide)
  unfold groupExplicit
  rw [if_pos (bne_iff_ne.mpr h1), if_pos h2]

theorem groupExplicit_of_fail {lg : String}
    (h : lg = "" ∨ expectedPatternTest (jsTrim lg) = false) :
    groupExplicit lg = "" := by
  unfold groupExplicit
  rcases h with rfl | h
  · simp
  · by_cases h1 : (lg != "") = true
    · rw [if_pos h1, if_neg (by simp [h])]
    · rw [if_neg h1]

theorem groupFallback_of_ne {g : String} (hg : g ≠ "") (f : String) :
    groupFallback g f = g := by
  unfold groupFallback
  rw [if_neg]
  simp [beq_empty_eq_false hg]

theorem groupFallback_empty_found {f : String} {a b : Char} (hf : f ≠ "")
    (h : searchGroup f.toList = some (a, b)) :
    groupFallback "" f = String.mk [a, b] := by
  unfold groupFallback
  rw [if_pos (by simp [bne_iff_ne, hf]), h]

theorem groupFallback_empty_notfound {f : String}
    (h : f = "" ∨ searchGroup f.toList = none) :
    groupFallback "" f = "" := by
  unfold groupFallback
  rcases h with rfl | h
  · simp
  · by_cases hf : (("" : String) == "" && f != "") = true
    · rw [if_pos hf, h]
    · rw [if_neg hf]

theorem groupFallback_shape (g f : String) :
    groupFallback g f = g ∨
    ∃ a b, groupFallback g f = String.mk [a, b] ∧
      isLetterAH a = true ∧ isDigit12 b = true := by
  unfold groupFallback
  by_cases hc : (g == "" && f != "") = true
  · rw [if_pos hc]
    cases hs : searchGroup f.toList with
    | some r =>
      right
      obtain ⟨a, b⟩ := r
      obtain ⟨ha, hb⟩ := searchGroup_sound hs
      exact ⟨a, b, rfl, ha, hb⟩
    | none => exact Or.inl rfl
  · rw [if_neg hc]
    exact Or.inl rfl

theorem deriveLearnerGroup_eq (lg sess sect : String) :
    deriveLearnerGroup lg sess sect =
      (if groupFallback (groupFallback (groupExplicit lg) sect) sess != "" then
        jsToUpper (jsTrim (groupFallback (groupFallback (groupExplicit lg) sect) sess))
      else "Ungrouped") := rfl

theorem derive_final_of_pair {g : String} {c d : Char}
    (hg : g = String.mk [c, d]) (hc : isLetterAH c = true) (hd : isDigit12 d = true) :
    (if g != "" then jsToUpper (jsTrim g) else "Ungrouped") =
      jsToUpper (String.mk [c, d]) := by
  subst hg
  rw [if_pos (bne_iff_ne.mpr mk_pair_ne_empty),
    jsTrim_pair (letterAH_not_white hc) (digit12_not_white hd)]

/-- C6: for all inputs `deriveLearnerGroup` never fails and returns
either an uppercase code matching `[A-H][1-2]` or the sentinel
`"Ungrouped"`; precedence is first-match-wins: a trimmed explicit
field matching `[A-H][1-2]` (case-insensitive) wins, else the
letter/whitespace/digit search on the section-name field, else the
same search on the session-name field, else `"Ungrouped"`; and the
four spec examples hold:
`deriveLearnerGroup "a1" "" "" = "A1"`,
`deriveLearnerGroup "" "Lecture B2 Review" "" = "B2"`,
`deriveLearnerGroup "" "" "" = "Ungrouped"`,
`deriveLearnerGroup "Z9" "" "" = "Ungrouped"`. -/
theorem c6_deriveLearnerGroup_total_shape_precedence :
    (∀ lg sess sect : String,
      deriveLearnerGroup lg sess sect = "Ungrouped" ∨
      isGroupCode (deriveLearnerGroup lg sess sect) = true) ∧
    (∀ lg sess sect : String,
      expectedPatternTest (jsTrim lg) = true →
      deriveLearnerGroup lg sess sect = jsToUpper (jsTrim lg)) ∧
    (∀ lg sess sect : String, ∀ a b : Char,
      (lg = "" ∨ expectedPatternTest (jsTrim lg) = false) →
      sect ≠ "" → searchGroup sect.toList = some (a, b) →
      deriveLearnerGroup lg sess sect = jsToUpper (String.mk [a, b])) ∧
    (∀ lg sess sect : String, ∀ a b : Char,
      (lg = "" ∨ expectedPatternTest (jsTrim lg) = false) →
      (sect = "" ∨ searchGroup sect.toList = none) →
      sess ≠ "" → searchGroup sess.toList = some (a, b) →
      deriveLearnerGroup lg sess sect = jsToUpper (String.mk [a, b])) ∧
    (∀ lg sess sect : String,
      (lg = "" ∨ expectedPatternTest (jsTrim lg) = false) →
      (sect = "" ∨ searchGroup sect.toList = none) →
      (sess = "" ∨ searchGroup sess.toList = none) →
      deriveLearnerGroup lg sess sect = "Ungrouped") ∧
    deriveLearnerGroup "a1" "" "" = "A1" ∧
    deriveLearnerGroup "" "Lecture B2 Review" "" = "B2" ∧
    deriveLearnerGroup "" "" "" = "Ungrouped" ∧
    deriveLearnerGroup "Z9" "" "" = "Ungrouped" := by
  refine ⟨?_, ?_, ?_, ?_, ?_, by decide, by decide, by decide, by decide⟩
  · intro lg sess sect
    rw [deriveLearnerGroup_eq]
    have h3 : groupFallback (groupFallback (groupExplicit lg) sect) sess = "" ∨
        ∃ c d, groupFallback (groupFallback (groupExplicit lg) sect) sess =
          String.mk [c, d] ∧ isLetterAH c = true ∧ isDigit12 d = true := by
      rcases groupFallback_shape (groupFallback (groupExplicit lg) sect) sess with h | h
      · rw [h]
        rcases groupFallback_shape (groupExplicit lg) sect with h2 | h2
        · rw [h2]
          exact groupExplicit_shape lg
        · exact Or.inr h2
      · exact Or.inr h
    rcases h3 with he | ⟨c, d, hcd, hc, hd⟩
    · rw [he]
      left
      simp
    · right
      rw [derive_final_of_pair hcd hc hd]
      exact groupCode_of_letter_digit hc hd
  · intro lg sess sect h2
    obtain ⟨c, d, hcd, hc, hd⟩ := expectedPatternTest_sound h2
    have hmk : jsTrim lg = String.mk [c, d] := by
      rw [← string_mk_toList (jsTrim lg), hcd]
    have hne : jsTrim lg ≠ "" := by
      rw [hmk]
      exact mk_pair_ne_empty
    rw [deriveLearnerGroup_eq, groupExplicit_of_test h2,
      groupFallback_of_ne hne, groupFallback_of_ne hne,
      derive_final_of_pair hmk hc hd, ← hmk]
  · intro lg sess sect a b hfail hsect hfound
    have hg1 : groupExplicit lg = "" := groupExplicit_of_fail hfail
    have hg2 : groupFallback (groupExplicit lg) sect = String.mk [a, b] := by
      rw [hg1]
      exact groupFallback_empty_found hsect hfound
    obtain ⟨ha, hb⟩ := searchGroup_sound hfound
    rw [deriveLearnerGroup_eq, hg2, groupFallback_of_ne mk_pair_ne_empty,
      derive_final_of_pair rfl ha hb]
  · intro lg sess sect a b hfail hsect hsess hfound
    have hg1 : groupExplicit lg = "" := groupExplicit_of_fail hfail
    have hg2 : groupFallback (groupExplicit lg) sect = "" := by
      rw [hg1]
      exact groupFallback_empty_notfound hsect
    have hg3 : groupFallback (groupFallback (groupExplicit lg) sect) sess =
        String.mk [a, b] := by
      rw [hg2]
      exact groupFallback_empty_found hsess hfound
    obtain ⟨ha, hb⟩ := searchGroup_sound hfound
    rw [deriveLearnerGroup_eq, hg3, derive_final_of_pair rfl ha hb]
  · intro lg sess sect hfail hsect hsess
    have hg1 : groupExplicit lg = "" := groupExplicit_of_fail hfail
    have hg2 : groupFallback (groupExplicit lg) sect = "" := by
      rw [hg1]
      exact groupFallback_empty_notfound hsect
    have hg3 : groupFallback (groupFallback (groupExplicit lg) sect) sess = "" := by
      rw [hg2]
      exact groupFallback_empty_notfound hsess
    rw [deriveLearnerGroup_eq, hg3]
    simp

/-- Witness for C6: the section-name fallback conjunct applied at the
concrete inputs `("Z9", "x", "Block C2")`. -/
theorem c6_deriveLearnerGroup_witness :
    deriveLearnerGroup "Z9" "x" "Block C2" = "C2" := by
  have h := c6_deriveLearnerGroup_total_shape_precedence.2.2.1 "Z9" "x" "Block C2"
    'C' '2' (Or.inr (by decide)) (by decide) (by decide)
  rw [h]
  decide

/-- C1: the claim fixes `parseTime("1:30 pm") = {13,30}`,
`parseTime("25:00") = null`, `parseTime("noon") = {12,0}` and
`parseTime("midnight") = {0,0}`.  The first two hold, but for the
words `noon`/`midnight` the regex `(noon|midnight)` puts the word in
capture group 1, so the source computes `parseInt("noon") = NaN` for
the hours, the `period === "noon"`/`"midnight"` branches never fire
(group 3 is undefined), and the NaN hours pass the range check; the
parser returns `{hours: NaN, minutes: 0}` instead of the documented
values. -/
theorem c1_parseTime_noon_midnight_return_nan_hours :
    parseTime (.str "1:30 pm") = some ⟨some 13, some 30⟩ ∧
    parseTime (.str "25:00") = none ∧
    parseTime (.str "noon") = some ⟨none, some 0⟩ ∧
    parseTime (.str "midnight") = some ⟨none, some 0⟩ := by
  decide

/-- C2: the claim that every non-null `parseTime` result satisfies
`0 ≤ hours ≤ 23` and `0 ≤ minutes ≤ 59` fails at the input `"noon"`:
the parser succeeds but the returned pair has NaN hours, which is not
a valid `TimeOfDay`. -/
theorem c2_parseTime_success_out_of_range :
    ∃ t, parseTime (.str "noon") = some t ∧ timeOfDayInRange t = false :=
  ⟨⟨none, some 0⟩, by decide, by decide⟩

/-- C3 counterexample: the claim says a same-date row with
`start = 14:00` and `end = 14:00` is rejected, but the Row Normalizer
accepts it (`start >= end` triggers the one-day rollover and
`start < end + 1 day` always holds for a same-day pair). -/
theorem c3_counterexample_equal_times_accepted :
    (processCSVRow [("Section Date", "20240115"), ("Start Time", "14:00"),
      ("End Time", "14:00")]).isSome = true := by
  decide

/-- C3 amended: for a row whose parsed start is at or after its parsed
end, the normalizer adds exactly one day to `end` and accepts the row
exactly when `start` is strictly before the adjusted end; a same-date
row with `start = 14:00`, `end = 13:00` is accepted with
`end − start = 23` hours, and a same-date row with `start = 14:00`,
`end = 14:00` is also accepted, with `end` rolled to the next day and
`end − start = 24` hours (not rejected). -/
theorem c3_amended_rollover_accepts_equal_times :
    (∀ s e : Int, e ≤ s →
      adjustEndStep (some s) (some e) =
        if s < e + 1440 then some (some (e + 1440)) else none) ∧
    processCSVRow [("Section Date", "20240115"), ("Start Time", "14:00"),
        ("End Time", "13:00")] =
      some { title := "Untitled Session", start := some 28422120,
             end_ := some 28423500, desc := "", location := "Unknown Location",
             learnerGroup := "Ungrouped" } ∧
    processCSVRow [("Section Date", "20240115"), ("Start Time", "14:00"),
        ("End Time", "14:00")] =
      some { title := "Untitled Session", start := some 28422120,
             end_ := some 28423560, desc := "", location := "Unknown Location",
             learnerGroup := "Ungrouped" } := by
  refine ⟨?_, by decide, by decide⟩
  intro s e h
  by_cases hlt : s < e + 1440 <;>
    simp [adjustEndStep, jdGe, jdLt, jdAddDays, h, hlt, one_mul]

/-- Witness for C3's amended theorem: the rollover conjunct applied at
`start = 840` (14:00) and `end = 780` (13:00) minutes. -/
theorem c3_amended_witness :
    adjustEndStep (some 840) (some 780) = some (some 2220) := by
  have h := c3_amended_rollover_accepts_equal_times.1 840 780 (by decide)
  simpa using h

/-- C4 counterexample: the claim says a row whose Section Date is in a
named-month notation (here `"Jan 15, 2024"`) with valid times is
accepted, but the Row Normalizer skips it: the date contains
alphabetic characters and does not strictly match `YYYYMMDD`, so the
alphabetic guard rejects the row before the named-month formats are
ever consulted. -/
theorem c4_counterexample_named_month_row_skipped :
    processCSVRow [("Section Date", "Jan 15, 2024"), ("Start Time", "09:00"),
      ("End Time", "10:00")] = none := by
  decide

/-- C4 amended: every row whose Section Date contains an alphabetic
character and does not strictly match `YYYYMMDD` is skipped by the Row
Normalizer — in particular all named-month dates — even though
`parseDateTime` itself does parse the named-month notations
`"MMM DD, YYYY"` and `"DD MMM YYYY"` when called directly. -/
theorem c4_amended_alpha_guard_blocks_named_month :
    (∀ row : Row, containsAlpha (getField row "Section Date") = true →
      validYYYYMMDD (getField row "Section Date") = false →
      processCSVRow row = none) ∧
    parseDateTime "Jan 15, 2024" (.str "09:00") = some (some 28421820) ∧
    parseDateTime "15 Jan 2024" (.str "09:00") = some (some 28421820) := by
  refine ⟨?_, by decide, by decide⟩
  intro row h1 h2
  have hne : getField row "Section Date" ≠ "" := by
    intro he
    rw [he] at h1
    exact absurd h1 (by decide)
  simp only [processCSVRow]
  rw [if_neg (by simp [beq_empty_eq_false hne]), if_pos (by simp [h1, h2])]

/-- Witness for C4's amended theorem: the guard conjunct applied to a
concrete row with the stray-text date `"abc"`. -/
theorem c4_amended_witness :
    processCSVRow [("Section Date", "abc"), ("Start Time", "09:00"),
      ("End Time", "10:00")] = none :=
  c4_amended_alpha_guard_blocks_named_month.1 _ (by decide) (by decide)

/-- C5: the invariant "every emitted record satisfies `end > start`"
fails.  For the row `{Section Date: "45000", Start Time: "noon",
End Time: "10:00"}` the Excel-serial branch of `parseDateTime` combines
the NaN hours produced by `parseTime("noon")` into an Invalid Date and
returns it without any validity check; the Invalid Date is truthy, all
NaN comparisons are false, and the row is emitted with an invalid
`start`, so `end > start` does not hold. -/
theorem c5_emitted_record_violates_end_after_start :
    ∃ ev, processCSVFile [[("Section Date", "45000"), ("Start Time", "noon"),
        ("End Time", "10:00")]] = [ev] ∧
      jdGt ev.end_ ev.start = false ∧ ev.start = none :=
  ⟨{ title := "Untitled Session", start := none, end_ := some 27979800,
     desc := "", location := "Unknown Location", learnerGroup := "Ungrouped" },
   by decide, by decide, by decide⟩

/-- C9: a CSV with header `Section Date,Start Time,End Time` and the
single data row `20240115,09:00,10:00` produces exactly one record,
with all compose-step defaults: title `"Untitled Session"`, empty
description, location `"Unknown Location"`, group `"Ungrouped"`
(timestamps: 2024-01-15 is day 19737 since the epoch, so 09:00 and
10:00 are minutes 28421820 and 28421880). -/
theorem c9_minimal_csv_produces_default_record :
    processCSVFile [[("Section Date", "20240115"), ("Start Time", "09:00"),
        ("End Time", "10:00")]] =
      [{ title := "Untitled Session", start := some 28421820,
         end_ := some 28421880, desc := "", location := "Unknown Location",
         learnerGroup := "Ungrouped" }] := by
  decide

theorem startsWithList_cons_cons (c p : Char) (cs ps : List Char) :
    startsWithList (c :: cs) (p :: ps) = (c == p && startsWithList cs ps) := rfl

theorem parseTime_some_not_falsy {tv : TimeValue} {t : TimeOfDay}
    (hp : parseTime tv = some t) : timeValueFalsy tv = false := by
  cases tv with
  | date h m => rfl
  | str s =>
    show (s == "") = false
    cases hx : s == ""
    · rfl
    · exfalso
      have hnone : parseTime (.str s) = none := by
        simp [parseTime, hx]
      rw [hnone] at hp
      exact absurd hp (by simp)

theorem fixInvalidDate_of_digits {s : String} (hne : s.toList ≠ [])
    (hdig : ∀ c ∈ s.toList, c.isDigit = true) : fixInvalidDate s = s := by
  unfold fixInvalidDate
  cases hl : s.toList with
  | nil => exact absurd hl hne
  | cons a as =>
    have ha : a.isDigit = true := hdig a (by rw [hl]; exact List.mem_cons_self a as)
    have hplus : (a == '+') = false := char_beq_eq_false_of_digit ha (by decide)
    have hsw : startsWithList (a :: as) ['+', '0', '5', '7', '3', '4', '2'] = false := by
      rw [startsWithList_cons_cons, hplus]
      rfl
    rw [if_neg (by simp [hsw])]

theorem jsIsNumericStr_of_digits {s : String} (hne : s.toList ≠ [])
    (hdig : ∀ c ∈ s.toList, c.isDigit = true) : jsIsNumericStr s = true := by
  have ht := jsTrimList_of_digits hdig
  simp only [jsIsNumericStr, ht]
  rw [if_pos (by
    simp only [Bool.and_eq_true, decide_eq_true_eq, List.all_eq_true]
    exact ⟨hne, hdig⟩)]

/-- C7: every purely numeric date string whose value `n` is below
100000 is interpreted by `parseDateTime` as an Excel 1900-epoch serial
day: the result is the day `n − 25569` relative to the Unix epoch,
with one extra day subtracted when `n > 59` (the source's leap-bug
correction), carrying the parsed time of day. -/
theorem c7_excel_serial_conversion :
    ∀ (s : String) (n : Nat) (tv : TimeValue) (h m : Int),
      s.toList ≠ [] → (∀ c ∈ s.toList, c.isDigit = true) →
      digitsToNat s.toList = n → (n : Int) < 100000 →
      parseTime tv = some ⟨some h, some m⟩ →
      0 ≤ h → h ≤ 23 → 0 ≤ m → m ≤ 59 →
      parseDateTime s tv =
        some (some (((n : Int) - 25569 - (if 59 < (n : Int) then 1 else 0)) * 1440
          + h * 60 + m)) := by
  intro s n tv h m hne hdig hval hlt hpt _ _ _ _
  have hsne : s ≠ "" := ne_empty_of_toList_ne_nil hne
  have hfalsy : timeValueFalsy tv = false := parseTime_some_not_falsy hpt
  have hfix : fixInvalidDate s = s := fixInvalidDate_of_digits hne hdig
  have hnum : jsIsNumericStr s = true := jsIsNumericStr_of_digits hne hdig
  have hpi : jsParseInt s = some (n : Int) := by
    rw [jsParseInt_of_digits hne hdig, hval]
  simp only [parseDateTime, beq_empty_eq_false hsne, hfalsy, Bool.or_self,
    Bool.false_eq_true, if_false, hfix, hnum, if_true, hpi, hpt]
  rw [if_pos hlt]
  by_cases h59 : 59 < (n : Int) <;> simp [h59]

/-- Witness for C7: serial `45000` combined with `"09:00"`; the day
index `45000 − 25569 − 1 = 19430` is the calendar date 2023-03-14. -/
theorem c7_excel_serial_witness :
    parseDateTime "45000" (.str "09:00") =
      some (some (((45000 : Int) - 25569 - 1) * 1440 + 9 * 60 + 0)) ∧
    civilFromDays (45000 - 25569 - 1) = (2023, 3, 14) := by
  constructor
  · have h := c7_excel_serial_conversion "45000" 45000 (.str "09:00") 9 0
      (by decide) (by decide) (by decide) (by decide) (by decide)
      (by decide) (by decide) (by decide) (by decide)
    simpa using h
  · decide

/-- C8: for every event list, a candidate whose end is not strictly
after its start is rejected both by the form's submit handler (on the
add path and on the update path alike, for any multi-day confirmation
outcome) and by `handleAddEvent` itself, leaving the event list
completely unchanged. -/
theorem c8_add_update_reject_nonpositive_span :
    ∀ (events : List EvObj) (selectedSlot : Bool) (selectedEvent : EvObj)
      (confirmOk : Bool) (cand : EvObj),
      cand.ev.end_ ≤ cand.ev.start →
      formSubmit events selectedSlot selectedEvent confirmOk cand = events ∧
      handleAddEvent events cand = events := by
  intro events slot sel cok cand hle
  constructor
  · unfold formSubmit
    by_cases hA : (dayOfMonth cand.ev.start != dayOfMonth cand.ev.end_ && !cok) = true
    · rw [if_pos hA]
    · rw [if_neg hA, if_pos hle]
  · unfold handleAddEvent
    rw [if_pos hle]

/-- Witness for C8: a candidate with `start = end = 5` is rejected by
the form on the add path and by `handleAddEvent`, leaving the empty
event list unchanged. -/
theorem c8_reject_witness :
    formSubmit [] true ⟨0, ⟨"t", 0, 10⟩⟩ true ⟨1, ⟨"u", 5, 5⟩⟩ = [] ∧
    handleAddEvent [] ⟨1, ⟨"u", 5, 5⟩⟩ = [] :=
  c8_add_update_reject_nonpositive_span [] true ⟨0, ⟨"t", 0, 10⟩⟩ true
    ⟨1, ⟨"u", 5, 5⟩⟩ (by decide)

/-- C10: `handleDeleteEvent` removes exactly the entries that are
reference-identical to its argument: membership in the result is
membership in the input with a different object identity; a list whose
entries all differ in identity from the target is left unchanged; and
an entry equal to the target in every field but with a distinct
identity is retained. -/
theorem c10_delete_removes_exactly_reference_identical :
    (∀ (events : List EvObj) (target : EvObj) (e : EvObj),
      e ∈ handleDeleteEvent events target ↔ e ∈ events ∧ e.oid ≠ target.oid) ∧
    (∀ (events : List EvObj) (target : EvObj),
      (∀ e ∈ events, e.oid ≠ target.oid) →
      handleDeleteEvent events target = events) ∧
    handleDeleteEvent [⟨1, ⟨"X", 0, 60⟩⟩] ⟨2, ⟨"X", 0, 60⟩⟩ =
      [⟨1, ⟨"X", 0, 60⟩⟩] := by
  refine ⟨?_, ?_, by decide⟩
  · intro events target e
    simp [handleDeleteEvent, List.mem_filter, bne_iff_ne]
  · intro events target hall
    unfold handleDeleteEvent
    refine List.filter_eq_self.mpr ?_
    intro a ha
    exact bne_iff_ne.mpr (hall a ha)

/-- Witness for C10: deleting a target absent from a one-element list
leaves it unchanged. -/
theorem c10_delete_witness :
    handleDeleteEvent [⟨5, ⟨"A", 0, 30⟩⟩] ⟨7, ⟨"A", 0, 30⟩⟩ =
      [⟨5, ⟨"A", 0, 30⟩⟩] :=
  c10_delete_removes_exactly_reference_identical.2.1 _ _ (by decide)
